import Mathlib

/-!
Verification development for the Markdown syntax highlighter of the Vine
editor (vine/gui/widgets/editor/highlighter.py).  The highlighter processes
one line ("block") at a time: it receives the line's text, the previous
line's persisted end state, and may read the previous and next lines' texts.
It emits per-character formats, its own end state ("currentBlockState"),
its resolved state ("userState"), possibly a forced resolved state for the
previous line, and possibly an entry in the dirty-block queue.

The embedding below mirrors `MarkdownSpellHighlighter`: each regular
expression of the rule table is embedded as a bespoke executable matcher
implementing that pattern's leftmost, backtracking match semantics, and the
four passes (`_highlight_additional_rules` for the pre and post rule lists,
`_highlight_headline`, `_highlight_comment_block`, `_highlight_code_block`)
are composed exactly as `highlightBlock` composes them.
`_highlight_misspelled` is a no-op when no dictionary is configured
(`self.dict = None`); the embedding covers that configuration.
-/

set_option maxHeartbeats 2000000
set_option maxRecDepth 8000

/-- Construct states, mirroring the IntEnum `HighlighterState`
(Default = 0 through HeadlineEnd = 22). -/
abbrev HighlighterState := Nat

def HighlighterState.Default : HighlighterState := 0

def HighlighterState.Link : HighlighterState := 1

def HighlighterState.Image : HighlighterState := 2

def HighlighterState.CodeBlock : HighlighterState := 3

def HighlighterState.Italic : HighlighterState := 4

def HighlighterState.Bold : HighlighterState := 5

def HighlighterState.List : HighlighterState := 6

def HighlighterState.Comment : HighlighterState := 7

def HighlighterState.H1 : HighlighterState := 8

def HighlighterState.H2 : HighlighterState := 9

def HighlighterState.H3 : HighlighterState := 10

def HighlighterState.H4 : HighlighterState := 11

def HighlighterState.H5 : HighlighterState := 12

def HighlighterState.H6 : HighlighterState := 13

def HighlighterState.BlockQuote : HighlighterState := 14

def HighlighterState.HorizontalRuler : HighlighterState := 15

def HighlighterState.Table : HighlighterState := 16

def HighlighterState.InlineCodeBlock : HighlighterState := 17

/-- The enum member named MaskedSyntax in the source (value 18); shortened
here to Masked. -/
def HighlighterState.Masked : HighlighterState := 18

def HighlighterState.BrokenLink : HighlighterState := 20

def HighlighterState.CodeBlockEnd : HighlighterState := 21

def HighlighterState.HeadlineEnd : HighlighterState := 22

/-- RGB color triple, standing in for QColor. -/
abbrev Rgb := Nat × Nat × Nat

/-- Embedding of QTextCharFormat restricted to the attributes the
highlighter's `build` helper can set.  `pointSize` holds tenths of a point
(the source uses `fontSize * 1.6` etc. with fontSize = 12, so H1 is 19.2pt,
stored here as 192); 0 means the font size property is unset, matching
`fontPointSize()` returning a falsy 0.0. -/
structure TextFormat where
  foreground : Option Rgb := none
  background : Option Rgb := none
  weightBold : Bool := false
  fontItalic : Bool := false
  underline : Bool := false
  fixedPitch : Bool := false
  pointSize : Nat := 0
deriving DecidableEq, Repr

/-- Color (0, 49, 110) used for all heading formats. -/
def headingColor : Rgb := (0, 49, 110)

/-- Color (220, 220, 220) used as code-block background. -/
def codeColor : Rgb := (220, 220, 220)

/-- The format table built by `_init_formats(12)`, keyed here by the
state's enum value rather than by its name string.  States without an entry
in the Python dict map to the default format; they are never looked up. -/
def formatFor (s : HighlighterState) : TextFormat :=
  if s = HighlighterState.H1 then
    { foreground := some headingColor, weightBold := true, pointSize := 192 }
  else if s = HighlighterState.H2 then
    { foreground := some headingColor, weightBold := true, pointSize := 180 }
  else if s = HighlighterState.H3 then
    { foreground := some headingColor, weightBold := true, pointSize := 168 }
  else if s = HighlighterState.H4 then
    { foreground := some headingColor, weightBold := true, pointSize := 156 }
  else if s = HighlighterState.H5 then
    { foreground := some headingColor, weightBold := true, pointSize := 144 }
  else if s = HighlighterState.H6 then
    { foreground := some headingColor, weightBold := true, pointSize := 132 }
  else if s = HighlighterState.HorizontalRuler then
    { foreground := some (128, 128, 128), background := some (192, 192, 192) }
  else if s = HighlighterState.List then
    { foreground := some (163, 0, 123) }
  else if s = HighlighterState.Link then
    { foreground := some (0, 128, 255), underline := true }
  else if s = HighlighterState.Image then
    { foreground := some (0, 191, 0), background := some (228, 255, 228) }
  else if s = HighlighterState.CodeBlock then
    { fixedPitch := true, background := some codeColor }
  else if s = HighlighterState.InlineCodeBlock then
    { fixedPitch := true, background := some codeColor }
  else if s = HighlighterState.Italic then
    { fontItalic := true }
  else if s = HighlighterState.Bold then
    { weightBold := true }
  else if s = HighlighterState.Comment then
    { foreground := some (160, 160, 160) }
  else if s = HighlighterState.Masked then
    { foreground := some (204, 204, 204) }
  else if s = HighlighterState.Table then
    { fixedPitch := true, foreground := some (100, 148, 73) }
  else if s = HighlighterState.BlockQuote then
    { foreground := some (128, 0, 0) }
  else
    { }

/-- Whitespace in the sense of the regex class backslash-s and of Python's
`str.strip()` on line text (lines never contain a newline, but the full set
is kept). -/
def isWsChar (c : Char) : Bool :=
  c == ' ' || c == '\t' || c == '\n' || c == '\x0d' || c == '\x0b' || c == '\x0c'

/-- Word character in the sense of the regex class backslash-w, restricted
to its ASCII fragment (letters, digits, underscore). -/
def isWordChar (c : Char) : Bool :=
  c.isAlphanum || c == '_'

/-- Length of the maximal leading run of characters satisfying `p`. -/
def leadRun (p : Char → Bool) : List Char → Nat
  | [] => 0
  | c :: rest => if p c then leadRun p rest + 1 else 0

/-- Character test at an index, false past the end of the list. -/
def isCharAt (t : List Char) (i : Nat) (p : Char → Bool) : Bool :=
  match t.get? i with
  | some c => p c
  | none => false

/-- Whether position `i` sits on a word character (false past the end). -/
def wordAt (t : List Char) (i : Nat) : Bool :=
  isCharAt t i isWordChar

/-- Word boundary test for the regex anchors backslash-b and backslash-B at
position `i` (a position ranges over 0 .. length). -/
def boundaryAt (t : List Char) (i : Nat) : Bool :=
  (if i = 0 then false else wordAt t (i - 1)) != wordAt t i

/-- Whether `pat` occurs at position `i` of `t` (a literal fragment). -/
def litAt (t : List Char) (i : Nat) (pat : List Char) : Bool :=
  pat.isPrefixOf (t.drop i)

/-- Python's `str.strip(chars)`: drop characters satisfying `p` from both
ends. -/
def pyStrip (p : Char → Bool) (t : List Char) : List Char :=
  ((t.dropWhile p).reverse.dropWhile p).reverse

/-- The character set of `strip(' =-')` used by the setext backward check. -/
def setextStripChar (c : Char) : Bool :=
  c == ' ' || c == '=' || c == '-'

/-- First position in the half-open range `lo ..< hi` satisfying `p`. -/
def findPos (lo hi : Nat) (p : Nat → Bool) : Option Nat :=
  (List.range' lo (hi - lo)).findSome? (fun i => if p i then some i else none)

/-- Last position in the half-open range `lo ..< hi` satisfying `p`
(backtracking order of a greedy quantifier). -/
def findPosRev (lo hi : Nat) (p : Nat → Bool) : Option Nat :=
  ((List.range' lo (hi - lo)).reverse).findSome? (fun i => if p i then some i else none)

/-- A regular-expression match: capture-group spans (start, length) indexed
by group number, group 0 first.  Groups a pattern leaves unset are absent;
`capOf` then yields the empty span (0, 0), matching Qt's capturedLength 0
(so the corresponding setFormat call is a no-op, as for Qt's -1/0). -/
abbrev RMatch := List (Nat × Nat)

/-- Captured span of group `g` (start, length). -/
def capOf (m : RMatch) (g : Nat) : Nat × Nat := m.getD g (0, 0)

/-- Matcher for the pre rule regex of MaskedSyntax:
open-paren caret backslash-bracket dot-plus-lazy close-bracket colon space
word-plus colon hash dot-plus dollar close-paren, i.e. a reference-link
definition line.  Anchored; the whole line is group 0 and group 1. -/
def refLinkHashAt (t : List Char) (p : Nat) : Option RMatch :=
  let n := t.length
  if p == 0 && isCharAt t 0 (fun c => c == '[') then
    match findPos 2 n (fun i =>
        litAt t i ("]: ".data) &&
        (let w := leadRun isWordChar (t.drop (i + 3))
         decide (1 ≤ w) && isCharAt t (i + 3 + w) (fun c => c == ':') &&
         isCharAt t (i + 4 + w) (fun c => c == '#') && decide (i + 5 + w < n))) with
    | some _ => some [(0, n), (0, n)]
    | none => none
  else none

/-- Matcher for the List rule regex: caret, whitespace-star, one of dash,
star or plus, then one whitespace. -/
def listBulletAt (t : List Char) (p : Nat) : Option RMatch :=
  if p == 0 then
    let k := leadRun isWsChar t
    if isCharAt t k (fun c => c == '-' || c == '*' || c == '+') &&
       isCharAt t (k + 1) isWsChar then
      some [(0, k + 2)]
    else none
  else none

/-- Matcher for the numbered List rule regex: caret, whitespace-star,
digits-plus, a dot, then one whitespace (whole match also group 1). -/
def listNumberAt (t : List Char) (p : Nat) : Option RMatch :=
  if p == 0 then
    let k := leadRun isWsChar t
    let d := leadRun Char.isDigit (t.drop k)
    if decide (1 ≤ d) && isCharAt t (k + d) (fun c => c == '.') &&
       isCharAt t (k + d + 1) isWsChar then
      some [(0, k + d + 2), (0, k + d + 2)]
    else none
  else none

/-- Matcher for the BlockQuote rule regex: caret, whitespace-star, then a
group of a greater-than sign, whitespace-star and dot-plus (to the end of
the line). -/
def blockQuoteAt (t : List Char) (p : Nat) : Option RMatch :=
  let n := t.length
  if p == 0 then
    let k := leadRun isWsChar t
    if isCharAt t k (fun c => c == '>') && decide (k + 2 ≤ n) then
      some [(0, n), (k, n - k)]
    else none
  else none

/-- Parser for the HorizontalRuler body: a repetition of (one of star,
dash, underscore, then an optional single whitespace), consuming the whole
remaining line; returns the repetition count. -/
def hrCount : List Char → Option Nat
  | [] => some 0
  | c :: rest =>
    if c == '*' || c == '-' || c == '_' then
      match rest with
      | [] => some 1
      | d :: rest2 =>
        if isWsChar d then (hrCount rest2).map (· + 1)
        else (hrCount (d :: rest2)).map (· + 1)
    else none

/-- Matcher for the HorizontalRuler rule regex: caret, three or more
repetitions of (ruler char, optional whitespace), dollar. -/
def horizontalRulerAt (t : List Char) (p : Nat) : Option RMatch :=
  if p == 0 then
    match hrCount t with
    | some r => if 3 ≤ r then some [(0, t.length)] else none
    | none => none
  else none

/-- Core of the star-Italic rule once the leading alternation has consumed
up to position `s` (group 1 starts at `gs`): a star, a content group whose
first char is neither star nor space and whose tail avoids stars (lazy),
a closing star, then either a char that is neither star nor backspace or
the end of the line. -/
def italicStarCore (t : List Char) (gs s : Nat) : Option RMatch :=
  let n := t.length
  if isCharAt t s (fun c => c == '*') &&
     isCharAt t (s + 1) (fun c => !(c == '*' || c == ' ')) then
    match findPos (s + 2) n (fun j => isCharAt t j (fun c => c == '*')) with
    | some j =>
      if j + 1 == n then
        some [(gs, j + 1 - gs), (gs, j + 1 - gs), (s + 1, j - (s + 1))]
      else if isCharAt t (j + 1) (fun c => !(c == '*' || c == '\x08')) then
        some [(gs, j + 2 - gs), (gs, j + 2 - gs), (s + 1, j - (s + 1))]
      else none
    | none => none
  else none

/-- Matcher for the star-Italic rule regex: a prefix alternation (caret or
a char that is neither star nor backspace), the starred content, and a
suffix alternation (such a char or the end). -/
def italicStarAt (t : List Char) (p : Nat) : Option RMatch :=
  if p == 0 then
    match italicStarCore t 0 0 with
    | some m => some m
    | none =>
      if isCharAt t 0 (fun c => !(c == '*' || c == '\x08')) then italicStarCore t 0 1
      else none
  else
    if isCharAt t p (fun c => !(c == '*' || c == '\x08')) then italicStarCore t p (p + 1)
    else none

/-- Matcher for the underscore-Italic rule regex: word boundary,
underscore, one or more non-underscores (group 1), underscore, word
boundary. -/
def italicUnderscoreAt (t : List Char) (p : Nat) : Option RMatch :=
  if boundaryAt t p && isCharAt t p (fun c => c == '_') then
    let r := leadRun (fun c => !(c == '_')) (t.drop (p + 1))
    if decide (1 ≤ r) && isCharAt t (p + 1 + r) (fun c => c == '_') &&
       boundaryAt t (p + 2 + r) then
      some [(p, r + 2), (p + 1, r)]
    else none
  else none

/-- Matcher for the star-Bold rule regex: non-boundary, two stars, a lazy
content group (group 2), two stars, non-boundary; group 1 wraps the whole
match. -/
def boldStarAt (t : List Char) (p : Nat) : Option RMatch :=
  let n := t.length
  if !boundaryAt t p && isCharAt t p (fun c => c == '*') &&
     isCharAt t (p + 1) (fun c => c == '*') then
    match findPos (p + 3) n (fun q =>
        isCharAt t q (fun c => c == '*') && isCharAt t (q + 1) (fun c => c == '*') &&
        !boundaryAt t (q + 2)) with
    | some q => some [(p, q + 2 - p), (p, q + 2 - p), (p + 2, q - (p + 2))]
    | none => none
  else none

/-- Matcher for the underscore-Bold rule regex: boundary, two underscores,
lazy content (group 1), two underscores, boundary. -/
def boldUnderscoreAt (t : List Char) (p : Nat) : Option RMatch :=
  let n := t.length
  if boundaryAt t p && isCharAt t p (fun c => c == '_') &&
     isCharAt t (p + 1) (fun c => c == '_') then
    match findPos (p + 3) n (fun q =>
        isCharAt t q (fun c => c == '_') && isCharAt t (q + 1) (fun c => c == '_') &&
        boundaryAt t (q + 2)) with
    | some q => some [(p, q + 2 - p), (p + 2, q - (p + 2))]
    | none => none
  else none

/-- Matcher for the bare-URL Link rule regex: boundary, lazy word chars, a
colon, two slashes, then one or more non-whitespace chars (greedy). -/
def autoLinkAt (t : List Char) (p : Nat) : Option RMatch :=
  if boundaryAt t p && wordAt t p then
    let r := leadRun isWordChar (t.drop p)
    if isCharAt t (p + r) (fun c => c == ':') && isCharAt t (p + r + 1) (fun c => c == '/') &&
       isCharAt t (p + r + 2) (fun c => c == '/') then
      let m := leadRun (fun c => !isWsChar c) (t.drop (p + r + 3))
      if 1 ≤ m then some [(p, r + 3 + m), (p, r + 3 + m)] else none
    else none
  else none

/-- Matcher for the angle-bracket Link rule regex: a less-than sign, a
group starting and ending with a char that is neither whitespace nor
backtick whose middle avoids backticks (lazy), then a greater-than sign. -/
def angleLinkAt (t : List Char) (p : Nat) : Option RMatch :=
  let n := t.length
  let bt : Char := '\x60'
  if isCharAt t p (fun c => c == '<') &&
     isCharAt t (p + 1) (fun c => !isWsChar c && !(c == bt)) then
    match findPos (p + 3) n (fun q =>
        isCharAt t q (fun c => c == '>') &&
        isCharAt t (q - 1) (fun c => !isWsChar c && !(c == bt)) &&
        ((t.drop (p + 2)).take (q - 1 - (p + 2))).all (fun c => !(c == bt))) with
    | some q => some [(p, q + 1 - p), (p + 1, q - 1 - p)]
    | none => none
  else none

/-- Matcher for the inline Link rule regex: bracketed text (group 2 of one
or more chars that are not square brackets), then a parenthesised target
(group 3: greedy non-whitespace, or lazy any chars), then non-boundary. -/
def inlineLinkAt (t : List Char) (p : Nat) : Option RMatch :=
  let n := t.length
  if isCharAt t p (fun c => c == '[') then
    let r := leadRun (fun c => !(c == '[' || c == ']')) (t.drop (p + 1))
    if decide (1 ≤ r) && isCharAt t (p + 1 + r) (fun c => c == ']') &&
       isCharAt t (p + 2 + r) (fun c => c == '(') then
      let b := p + 3 + r
      let m := leadRun (fun c => !isWsChar c) (t.drop b)
      match findPosRev 1 (m + 1) (fun k =>
          isCharAt t (b + k) (fun c => c == ')') && !boundaryAt t (b + k + 1)) with
      | some k => some [(p, b + k + 1 - p), (p, b + k + 1 - p), (p + 1, r), (b, k)]
      | none =>
        match findPos (b + 1) n (fun q =>
            isCharAt t q (fun c => c == ')') && !boundaryAt t (q + 1)) with
        | some q => some [(p, q + 1 - p), (p, q + 1 - p), (p + 1, r), (b, q - b)]
        | none => none
    else none
  else none

/-- Matcher for the empty-text Link rule regex: literal bracket pair, then
a parenthesised lazy target (group 2). -/
def emptyLinkAt (t : List Char) (p : Nat) : Option RMatch :=
  let n := t.length
  if litAt t p ("[](".data) then
    match findPos (p + 4) n (fun q => isCharAt t q (fun c => c == ')')) with
    | some q => some [(p, q + 1 - p), (p, q + 1 - p), (p + 3, q - (p + 3))]
    | none => none
  else none

/-- Matcher for the email Link rule regex: less-than, lazy chars, an at
sign, lazy chars, greater-than; group 1 is the address. -/
def emailLinkAt (t : List Char) (p : Nat) : Option RMatch :=
  let n := t.length
  if isCharAt t p (fun c => c == '<') then
    (List.range' (p + 2) (n - (p + 2))).findSome? (fun a =>
      if isCharAt t a (fun c => c == '@') then
        match findPos (a + 2) n (fun g => isCharAt t g (fun c => c == '>')) with
        | some g => some [(p, g + 1 - p), (p + 1, g - (p + 1))]
        | none => none
      else none)
  else none

/-- Matcher for the reference-use Link rule regex: bracketed lazy text
(group 2), an optional single whitespace, then a second bracketed lazy
text. -/
def refLinkUseAt (t : List Char) (p : Nat) : Option RMatch :=
  let n := t.length
  if isCharAt t p (fun c => c == '[') then
    (List.range' (p + 2) (n - (p + 2))).findSome? (fun q1 =>
      if isCharAt t q1 (fun c => c == ']') then
        let second := fun (s2 : Nat) =>
          if isCharAt t s2 (fun c => c == '[') then
            (findPos (s2 + 2) n (fun q2 => isCharAt t q2 (fun c => c == ']'))).map
              (fun q2 => q2 + 1)
          else none
        match (if isCharAt t (q1 + 1) isWsChar then second (q1 + 2) else none) with
        | some e => some [(p, e - p), (p, e - p), (p + 1, q1 - (p + 1))]
        | none =>
          match second (q1 + 1) with
          | some e => some [(p, e - p), (p, e - p), (p + 1, q1 - (p + 1))]
          | none => none
      else none)
  else none

/-- Matcher for the Image rule regex: exclamation mark, bracketed lazy alt
text (group 2), parenthesised lazy target. -/
def imageAt (t : List Char) (p : Nat) : Option RMatch :=
  let n := t.length
  if isCharAt t p (fun c => c == '!') && isCharAt t (p + 1) (fun c => c == '[') then
    (List.range' (p + 3) (n - (p + 3))).findSome? (fun q1 =>
      if isCharAt t q1 (fun c => c == ']') && isCharAt t (q1 + 1) (fun c => c == '(') then
        match findPos (q1 + 3) n (fun q2 => isCharAt t q2 (fun c => c == ')')) with
        | some q2 => some [(p, q2 + 1 - p), (p, q2 + 1 - p), (p + 2, q1 - (p + 2))]
        | none => none
      else none)
  else none

/-- Matcher for the empty-alt Image rule regex: exclamation mark, empty
bracket pair, parenthesised lazy target (group 2). -/
def emptyImageAt (t : List Char) (p : Nat) : Option RMatch :=
  let n := t.length
  if litAt t p ("![](".data) then
    match findPos (p + 5) n (fun q => isCharAt t q (fun c => c == ')')) with
    | some q => some [(p, q + 1 - p), (p, q + 1 - p), (p + 4, q - (p + 4))]
    | none => none
  else none

/-- Matcher for the linked-image Link rule regex: a bracketed image (alt
text is group 2) followed by a parenthesised lazy target. -/
def imageLinkAt (t : List Char) (p : Nat) : Option RMatch :=
  let n := t.length
  if litAt t p ("[![".data) then
    (List.range' (p + 4) (n - (p + 4))).findSome? (fun q1 =>
      if isCharAt t q1 (fun c => c == ']') && isCharAt t (q1 + 1) (fun c => c == '(') then
        (List.range' (q1 + 3) (n - (q1 + 3))).findSome? (fun q2 =>
          if isCharAt t q2 (fun c => c == ')') && isCharAt t (q2 + 1) (fun c => c == ']') &&
             isCharAt t (q2 + 2) (fun c => c == '(') then
            match findPos (q2 + 4) n (fun q3 => isCharAt t q3 (fun c => c == ')')) with
            | some q3 => some [(p, q3 + 1 - p), (p, q3 + 1 - p), (p + 3, q1 - (p + 3))]
            | none => none
          else none)
      else none)
  else none

/-- Matcher for the linked empty-alt image Link rule regex: a bracketed
empty image followed by a parenthesised lazy target (group 2). -/
def emptyImageLinkAt (t : List Char) (p : Nat) : Option RMatch :=
  let n := t.length
  if litAt t p ("[![](".data) then
    (List.range' (p + 6) (n - (p + 6))).findSome? (fun q1 =>
      if isCharAt t q1 (fun c => c == ')') && litAt t (q1 + 1) ("](".data) then
        match findPos (q1 + 4) n (fun q2 => isCharAt t q2 (fun c => c == ')')) with
        | some q2 => some [(p, q2 + 1 - p), (p, q2 + 1 - p), (q1 + 3, q2 - (q1 + 3))]
        | none => none
      else none)
  else none

/-- Matcher for the InlineCodeBlock rule regex: backtick, lazy content
(group 1), backtick. -/
def inlineCodeAt (t : List Char) (p : Nat) : Option RMatch :=
  let n := t.length
  let bt : Char := '\x60'
  if isCharAt t p (fun c => c == bt) then
    match findPos (p + 2) n (fun q => isCharAt t q (fun c => c == bt)) with
    | some q => some [(p, q + 1 - p), (p + 1, q - (p + 1))]
    | none => none
  else none

/-- Matcher for the indented CodeBlock rule regex: caret, a tab or four or
more spaces, then one or more chars to the end of the line. -/
def indentCodeAt (t : List Char) (p : Nat) : Option RMatch :=
  let n := t.length
  if p == 0 then
    if isCharAt t 0 (fun c => c == '\t') then
      if 2 ≤ n then some [(0, n), (0, 1), (0, 1)] else none
    else
      let s := leadRun (fun c => c == ' ') t
      if 4 ≤ s ∧ 5 ≤ n then some [(0, n)] else none
  else none

/-- Matcher for the inline Comment rule regex: an HTML comment open
marker, lazy content (group 2), close marker; group 1 wraps the whole
match. -/
def inlineCommentAt (t : List Char) (p : Nat) : Option RMatch :=
  let n := t.length
  if litAt t p ("<!--".data) then
    match findPos (p + 5) n (fun q => litAt t q ("-->".data)) with
    | some q => some [(p, q + 3 - p), (p, q + 3 - p), (p + 4, q - (p + 4))]
    | none => none
  else none

/-- Matcher for the reference-style Comment rule regex: caret, bracketed
lazy text, colon-space-hash-space, a parenthesised lazy body ending the
line. -/
def refCommentAt (t : List Char) (p : Nat) : Option RMatch :=
  let n := t.length
  if p == 0 && isCharAt t 0 (fun c => c == '[') && isCharAt t (n - 1) (fun c => c == ')') then
    match findPos 2 n (fun q1 => litAt t q1 ("]: # (".data) && decide (q1 + 7 ≤ n - 1)) with
    | some _ => some [(0, n), (0, n)]
    | none => none
  else none

/-- Matcher for the Table rule regex: caret, a pipe, lazy content, a pipe,
dollar. -/
def tableAt (t : List Char) (p : Nat) : Option RMatch :=
  let n := t.length
  if p == 0 && isCharAt t 0 (fun c => c == '|') && isCharAt t (n - 1) (fun c => c == '|') &&
     decide (3 ≤ n) then
    some [(0, n)]
  else none

/-- The setext H1 underline pattern: caret, one or more equals signs,
dollar. -/
def patternH1Match (t : List Char) : Bool :=
  !t.isEmpty && t.all (fun c => c == '=')

/-- The setext H2 underline pattern: caret, one or more dashes, dollar. -/
def patternH2Match (t : List Char) : Bool :=
  !t.isEmpty && t.all (fun c => c == '-')

/-- The code-fence pattern of `_highlight_code_block`: caret, three
backticks, lazy word chars, dollar. -/
def fenceMatch (t : List Char) : Bool :=
  litAt t 0 ['\x60', '\x60', '\x60'] && (t.drop 3).all isWordChar

/-- One step of QRegularExpressionMatchIterator: find the leftmost match at
or after `p`, emit it, continue from its end (one past it for an empty
match).  Fuel bounds the number of matches; length + 1 always suffices. -/
def globalScanAux (f : Nat → Option RMatch) (n : Nat) : Nat → Nat → List RMatch
  | 0, _ => []
  | fuel + 1, p =>
    match (List.range' p (n + 1 - p)).findSome? f with
    | none => []
    | some m =>
      let s := (capOf m 0).1
      let l := (capOf m 0).2
      m :: globalScanAux f n fuel (if l = 0 then s + 1 else s + l)

/-- All non-overlapping matches of an anchored matcher over `t`, leftmost
first: the embedding of `expression.globalMatch(text)`. -/
def runMatcher (f : List Char → Nat → Option RMatch) (t : List Char) : List RMatch :=
  globalScanAux (f t) t.length (t.length + 1) 0

/-- Embedding of the HighlightRule dataclass.  The `pattern` string is
kept under its source field name but holds its compiled form (the global
matcher for that pattern); the remaining fields keep their source names
and defaults. -/
structure HighlightRule where
  state : HighlighterState
  pattern : List Char → List RMatch
  capturing : Nat := 0
  masked : Nat := 0
  useState : Bool := false
  disable : Bool := false

/-- The `_pre_rules` list built by `_init_rules`, in order. -/
def preRules : List HighlightRule :=
  [ { state := HighlighterState.Masked, pattern := runMatcher refLinkHashAt },
    { state := HighlighterState.List, pattern := runMatcher listBulletAt, useState := true },
    { state := HighlighterState.List, pattern := runMatcher listNumberAt, useState := true },
    { state := HighlighterState.BlockQuote, pattern := runMatcher blockQuoteAt },
    { state := HighlighterState.HorizontalRuler, pattern := runMatcher horizontalRulerAt } ]

/-- The `_post_rules` list built by `_init_rules`, in order. -/
def postRules : List HighlightRule :=
  [ { state := HighlighterState.Italic, pattern := runMatcher italicStarAt, capturing := 1 },
    { state := HighlighterState.Italic, pattern := runMatcher italicUnderscoreAt, capturing := 1 },
    { state := HighlighterState.Bold, pattern := runMatcher boldStarAt, capturing := 1 },
    { state := HighlighterState.Bold, pattern := runMatcher boldUnderscoreAt, capturing := 1 },
    { state := HighlighterState.Link, pattern := runMatcher autoLinkAt, capturing := 0 },
    { state := HighlighterState.Link, pattern := runMatcher angleLinkAt, capturing := 1 },
    { state := HighlighterState.Link, pattern := runMatcher inlineLinkAt, capturing := 1 },
    { state := HighlighterState.Link, pattern := runMatcher emptyLinkAt, capturing := 1 },
    { state := HighlighterState.Link, pattern := runMatcher emailLinkAt, capturing := 1 },
    { state := HighlighterState.Link, pattern := runMatcher refLinkUseAt, capturing := 1 },
    { state := HighlighterState.Image, pattern := runMatcher imageAt, capturing := 1 },
    { state := HighlighterState.Image, pattern := runMatcher emptyImageAt, capturing := 1 },
    { state := HighlighterState.Link, pattern := runMatcher imageLinkAt, capturing := 1 },
    { state := HighlighterState.Link, pattern := runMatcher emptyImageLinkAt, capturing := 1 },
    { state := HighlighterState.InlineCodeBlock, pattern := runMatcher inlineCodeAt, capturing := 1 },
    { state := HighlighterState.CodeBlock, pattern := runMatcher indentCodeAt, disable := true },
    { state := HighlighterState.Comment, pattern := runMatcher inlineCommentAt, capturing := 1 },
    { state := HighlighterState.Comment, pattern := runMatcher refCommentAt, capturing := 1 },
    { state := HighlighterState.Table, pattern := runMatcher tableAt } ]

/-- The mutable outcome of one `highlightBlock` call: the line's
currentBlockState (its end state), its userState (resolved state), the
per-character formats, the userState written onto the previous block by the
setext branch (none if untouched), and the dirty-block queue. -/
structure HLSt where
  state : HighlighterState
  userState : HighlighterState
  fmts : Nat → TextFormat
  prevUserState : Option HighlighterState
  dirty : List Nat

/-- Embedding of `QSyntaxHighlighter.setFormat(start, count, format)`. -/
def setFormat (f : Nat → TextFormat) (start len : Nat) (fmt : TextFormat) :
    Nat → TextFormat :=
  fun i => if start ≤ i ∧ i < start + len then fmt else f i

/-- Embedding of `add_dirty_block`: append only when absent. -/
def addDirtyBlock (dq : List Nat) (b : Nat) : List Nat :=
  if b ∈ dq then dq else dq ++ [b]

/-- The order in which `timer_tick` reprocesses the queue: it pops the
front repeatedly until the queue is empty. -/
def timerTickOrder : List Nat → List Nat
  | [] => []
  | b :: rest => b :: timerTickOrder rest

/-- The body of the match loop of `_highlight_additional_rules`: for a
capturing rule, first paint the `masked` group with MaskedSyntax (taking
the rule format's font size when that format sets one), then paint the
`capturing` group with the rule's format. -/
def paintMatch (r : HighlightRule) (st : HLSt) (m : RMatch) : HLSt :=
  let format := formatFor r.state
  let st1 :=
    if r.capturing ≠ 0 then
      let mf := formatFor HighlighterState.Masked
      let mf := if format.pointSize ≠ 0 then { mf with pointSize := format.pointSize } else mf
      let c := capOf m r.masked
      { st with fmts := setFormat st.fmts c.1 c.2 mf }
    else st
  let c := capOf m r.capturing
  { st1 with fmts := setFormat st1.fmts c.1 c.2 format }

/-- One rule of `_highlight_additional_rules`: skipped when `disable` is
set and a state is already set; otherwise sets the block state when
`useState` is set and a match exists, then paints every match. -/
def applyRule (text : List Char) (st : HLSt) (r : HighlightRule) : HLSt :=
  if r.disable && !(st.state == HighlighterState.Default) then st
  else
    let ms := r.pattern text
    let st1 := if r.useState && !ms.isEmpty then { st with state := r.state } else st
    ms.foldl (paintMatch r) st1

/-- Embedding of `_highlight_additional_rules(rules, text)`. -/
def additionalRules (rules : List HighlightRule) (text : List Char) (st : HLSt) : HLSt :=
  rules.foldl (applyRule text) st

/-- Whether the suffix left after the lazy ATX content group can be matched
by whitespace-star hash-star dollar. -/
def tailOk (s : List Char) : Bool :=
  (s.dropWhile isWsChar).all (fun c => c == '#')

/-- Length of the lazy ATX content group: the least positive k such that
what follows it is whitespace then trailing hashes. -/
def minK : List Char → Nat
  | [] => 1
  | _ :: rest => if tailOk rest then 1 else 1 + minK rest

/-- Matcher for the ATX pattern of `_highlight_headline`: caret, a group
of hashes, whitespace-plus, a lazy content group, whitespace-star,
hash-star, dollar.  Returns (hash count, content start, content length).
The greedy hash group always takes the whole leading run (fewer would put
a hash where whitespace is required); the greedy whitespace run gives one
character back to the content group only when nothing follows it. -/
def atxMatch (t : List Char) : Option (Nat × Nat × Nat) :=
  let cnt := leadRun (fun c => c == '#') t
  if cnt = 0 then none
  else
    let m := leadRun isWsChar (t.drop cnt)
    if m = 0 then none
    else
      let rest := t.drop (cnt + m)
      if rest.isEmpty then
        if 2 ≤ m then some (cnt, cnt + m - 1, 1) else none
      else
        some (cnt, cnt + m, minK rest)

/-- Embedding of `_highlight_headline(text)`.  `prevState` is
`previousBlockState()`, `prevText`/`nextText` the neighbouring blocks'
texts (empty for an invalid block), `prevId` identifies the previous block
in the dirty queue. -/
def highlightHeadline (text prevText nextText : List Char) (prevState : HighlighterState)
    (prevId : Nat) (st : HLSt) : HLSt :=
  match atxMatch text with
  | some (cnt, capStart, capLen) =>
    let count := min cnt 6
    let hstate := HighlighterState.H1 + count - 1
    let format := formatFor (HighlighterState.H1 + count - 1)
    let masked := { formatFor HighlighterState.Masked with pointSize := format.pointSize }
    let f1 := setFormat st.fmts 0 text.length masked
    let f2 := setFormat f1 capStart capLen format
    { st with fmts := f2, state := hstate, userState := hstate }
  | none =>
    let previousText := pyStrip setextStripChar prevText
    if patternH1Match text then
      if (prevState == HighlighterState.H1 || prevState == HighlighterState.Default) &&
         !previousText.isEmpty then
        let masked := { formatFor HighlighterState.Masked with
                        pointSize := (formatFor HighlighterState.H1).pointSize }
        { st with fmts := setFormat st.fmts 0 text.length masked,
                  state := HighlighterState.HeadlineEnd,
                  prevUserState := some HighlighterState.H1,
                  dirty := addDirtyBlock st.dirty prevId }
      else st
    else if patternH2Match text then
      if (prevState == HighlighterState.H2 || prevState == HighlighterState.Default) &&
         !previousText.isEmpty then
        let masked := { formatFor HighlighterState.Masked with
                        pointSize := (formatFor HighlighterState.H2).pointSize }
        { st with fmts := setFormat st.fmts 0 text.length masked,
                  state := HighlighterState.HeadlineEnd,
                  prevUserState := some HighlighterState.H2,
                  dirty := addDirtyBlock st.dirty prevId }
      else st
    else
      let st1 :=
        if patternH1Match nextText || patternH2Match nextText then
          { st with fmts := setFormat st.fmts 0 text.length (formatFor HighlighterState.H1),
                    state := HighlighterState.H1, userState := HighlighterState.H1 }
        else st
      if patternH2Match nextText then
        { st1 with fmts := setFormat st1.fmts 0 text.length (formatFor HighlighterState.H2),
                   state := HighlighterState.H2, userState := HighlighterState.H2 }
      else st1

/-- The HTML comment open marker. -/
def openMarker : List Char := ['<', '!', '-', '-']

/-- The HTML comment close marker. -/
def closeMarker : List Char := ['-', '-', '>']

/-- Python's `str.startswith` on char lists. -/
def startsWithL (t pat : List Char) : Bool := pat.isPrefixOf t

/-- Python's `str.endswith` on char lists. -/
def endsWithL (t pat : List Char) : Bool := pat.isSuffixOf t

/-- Python's substring containment (`pat in t`) on char lists. -/
def containsL (t pat : List Char) : Bool := decide (pat <:+: t)

/-- Embedding of `_highlight_comment_block(text)`: works on the
whitespace-stripped text; a line holding both markers is skipped entirely;
an opener or an unterminated continuation sets state Comment; any
highlighted case paints the first stripped-length characters. -/
def commentBlockStage (text0 : List Char) (prevState : HighlighterState) (st : HLSt) : HLSt :=
  let text := pyStrip isWsChar text0
  if startsWithL text openMarker && containsL text closeMarker then st
  else if startsWithL text openMarker ||
          (!endsWithL text closeMarker && prevState == HighlighterState.Comment) then
    { st with state := HighlighterState.Comment,
              fmts := setFormat st.fmts 0 text.length (formatFor HighlighterState.Comment) }
  else if endsWithL text closeMarker then
    { st with fmts := setFormat st.fmts 0 text.length (formatFor HighlighterState.Comment) }
  else st

/-- Embedding of `_highlight_code_block(text)`: a fence line toggles
CodeBlock/CodeBlockEnd and is painted MaskedSyntax (with CodeBlock's font
size, which is unset); a non-fence line after a CodeBlock line is painted
CodeBlock over its whole length. -/
def codeBlockStage (text : List Char) (prevState : HighlighterState) (st : HLSt) : HLSt :=
  if fenceMatch text then
    let masked := { formatFor HighlighterState.Masked with
                    pointSize := (formatFor HighlighterState.CodeBlock).pointSize }
    { st with
      state := if prevState == HighlighterState.CodeBlock then HighlighterState.CodeBlockEnd
               else HighlighterState.CodeBlock,
      fmts := setFormat st.fmts 0 text.length masked }
  else if prevState == HighlighterState.CodeBlock then
    { st with state := HighlighterState.CodeBlock,
              fmts := setFormat st.fmts 0 text.length (formatFor HighlighterState.CodeBlock) }
  else st

/-- The state at the top of `highlightBlock`: both states reset to
Default, no formats applied yet, previous block untouched, queue as
given. -/
def initSt (dq : List Nat) : HLSt :=
  { state := HighlighterState.Default, userState := HighlighterState.Default,
    fmts := fun _ => formatFor HighlighterState.Default, prevUserState := none, dirty := dq }

/-- The part of `highlightBlock` guarded by `if text:`: pre rules, the
headline pass, then post rules. -/
def rulesPhase (prevId : Nat) (dq : List Nat) (text prevText nextText : List Char)
    (prevState : HighlighterState) : HLSt :=
  let st0 := initSt dq
  if text.isEmpty then st0
  else
    let a := additionalRules preRules text st0
    let b := highlightHeadline text prevText nextText prevState prevId a
    additionalRules postRules text b

/-- Embedding of `highlightBlock(text)` for one line, with the misspelling
pass a no-op (no dictionary configured). -/
def highlightBlock (prevId : Nat) (dq : List Nat) (text prevText nextText : List Char)
    (prevState : HighlighterState) : HLSt :=
  codeBlockStage text prevState
    (commentBlockStage text prevState
      (rulesPhase prevId dq text prevText nextText prevState))

theorem paintMatch_state (r : HighlightRule) (st : HLSt) (m : RMatch) :
    (paintMatch r st m).state = st.state := by
  unfold paintMatch
  by_cases h : r.capturing ≠ 0 <;> simp [h]

theorem paintMatch_userState (r : HighlightRule) (st : HLSt) (m : RMatch) :
    (paintMatch r st m).userState = st.userState := by
  unfold paintMatch
  by_cases h : r.capturing ≠ 0 <;> simp [h]

theorem paintMatch_prevUserState (r : HighlightRule) (st : HLSt) (m : RMatch) :
    (paintMatch r st m).prevUserState = st.prevUserState := by
  unfold paintMatch
  by_cases h : r.capturing ≠ 0 <;> simp [h]

theorem paintMatch_dirty (r : HighlightRule) (st : HLSt) (m : RMatch) :
    (paintMatch r st m).dirty = st.dirty := by
  unfold paintMatch
  by_cases h : r.capturing ≠ 0 <;> simp [h]

theorem foldl_paintMatch_state (r : HighlightRule) :
    ∀ (ms : List RMatch) (st : HLSt), (ms.foldl (paintMatch r) st).state = st.state
  | [], _ => rfl
  | m :: ms, st => by
    rw [List.foldl_cons, foldl_paintMatch_state r ms, paintMatch_state]

theorem foldl_paintMatch_userState (r : HighlightRule) :
    ∀ (ms : List RMatch) (st : HLSt), (ms.foldl (paintMatch r) st).userState = st.userState
  | [], _ => rfl
  | m :: ms, st => by
    rw [List.foldl_cons, foldl_paintMatch_userState r ms, paintMatch_userState]

theorem foldl_paintMatch_prevUserState (r : HighlightRule) :
    ∀ (ms : List RMatch) (st : HLSt), (ms.foldl (paintMatch r) st).prevUserState = st.prevUserState
  | [], _ => rfl
  | m :: ms, st => by
    rw [List.foldl_cons, foldl_paintMatch_prevUserState r ms, paintMatch_prevUserState]

theorem foldl_paintMatch_dirty (r : HighlightRule) :
    ∀ (ms : List RMatch) (st : HLSt), (ms.foldl (paintMatch r) st).dirty = st.dirty
  | [], _ => rfl
  | m :: ms, st => by
    rw [List.foldl_cons, foldl_paintMatch_dirty r ms, paintMatch_dirty]

theorem applyRule_dirty (t : List Char) (st : HLSt) (r : HighlightRule) :
    (applyRule t st r).dirty = st.dirty := by
  unfold applyRule
  split
  · rfl
  · simp only [foldl_paintMatch_dirty]
    split <;> rfl

theorem applyRule_userState (t : List Char) (st : HLSt) (r : HighlightRule) :
    (applyRule t st r).userState = st.userState := by
  unfold applyRule
  split
  · rfl
  · simp only [foldl_paintMatch_userState]
    split <;> rfl

theorem applyRule_prevUserState (t : List Char) (st : HLSt) (r : HighlightRule) :
    (applyRule t st r).prevUserState = st.prevUserState := by
  unfold applyRule
  split
  · rfl
  · simp only [foldl_paintMatch_prevUserState]
    split <;> rfl

theorem applyRule_state_of_not_useState (t : List Char) (st : HLSt) (r : HighlightRule)
    (h : r.useState = false) : (applyRule t st r).state = st.state := by
  unfold applyRule
  split
  · rfl
  · simp only [foldl_paintMatch_state, h, Bool.false_and, Bool.false_eq_true, if_false]

theorem applyRule_state_or (t : List Char) (st : HLSt) (r : HighlightRule) :
    (applyRule t st r).state = st.state ∨ (applyRule t st r).state = r.state := by
  unfold applyRule
  split
  · exact Or.inl rfl
  · simp only [foldl_paintMatch_state]
    split
    · exact Or.inr rfl
    · exact Or.inl rfl

theorem additionalRules_dirty : ∀ (rs : List HighlightRule) (t : List Char) (st : HLSt),
    (additionalRules rs t st).dirty = st.dirty
  | [], _, _ => rfl
  | r :: rs, t, st => by
    show (additionalRules rs t (applyRule t st r)).dirty = st.dirty
    rw [additionalRules_dirty rs, applyRule_dirty]

theorem additionalRules_userState : ∀ (rs : List HighlightRule) (t : List Char) (st : HLSt),
    (additionalRules rs t st).userState = st.userState
  | [], _, _ => rfl
  | r :: rs, t, st => by
    show (additionalRules rs t (applyRule t st r)).userState = st.userState
    rw [additionalRules_userState rs, applyRule_userState]

theorem additionalRules_prevUserState : ∀ (rs : List HighlightRule) (t : List Char) (st : HLSt),
    (additionalRules rs t st).prevUserState = st.prevUserState
  | [], _, _ => rfl
  | r :: rs, t, st => by
    show (additionalRules rs t (applyRule t st r)).prevUserState = st.prevUserState
    rw [additionalRules_prevUserState rs, applyRule_prevUserState]

theorem additionalRules_state_of : ∀ (rs : List HighlightRule),
    (∀ r ∈ rs, r.useState = false) → ∀ (t : List Char) (st : HLSt),
    (additionalRules rs t st).state = st.state
  | [], _, _, _ => rfl
  | r :: rs, h, t, st => by
    show (additionalRules rs t (applyRule t st r)).state = st.state
    rw [additionalRules_state_of rs (fun x hx => h x (List.mem_cons_of_mem r hx)),
        applyRule_state_of_not_useState _ _ _ (h r (List.mem_cons_self r rs))]

/-- None of the post rules carries `useState`, so the post pass never
changes the block state. -/
theorem postRules_state (t : List Char) (st : HLSt) :
    (additionalRules postRules t st).state = st.state := by
  apply additionalRules_state_of
  intro r hr
  fin_cases hr <;> rfl

/-- The pre pass leaves the state alone or sets it to List (only the two
List rules carry `useState`). -/
theorem preRules_state (t : List Char) (st : HLSt) :
    (additionalRules preRules t st).state = st.state ∨
    (additionalRules preRules t st).state = HighlighterState.List := by
  have e : additionalRules preRules t st = applyRule t (applyRule t (applyRule t (applyRule t
      (applyRule t st
      { state := HighlighterState.Masked, pattern := runMatcher refLinkHashAt })
      { state := HighlighterState.List, pattern := runMatcher listBulletAt, useState := true })
      { state := HighlighterState.List, pattern := runMatcher listNumberAt, useState := true })
      { state := HighlighterState.BlockQuote, pattern := runMatcher blockQuoteAt })
      { state := HighlighterState.HorizontalRuler, pattern := runMatcher horizontalRulerAt } := rfl
  rw [e, applyRule_state_of_not_useState _ _ _ rfl, applyRule_state_of_not_useState _ _ _ rfl]
  rcases applyRule_state_or t (applyRule t (applyRule t st _) _)
      { state := HighlighterState.List, pattern := runMatcher listNumberAt, useState := true } with h | h
  · rw [h]
    rcases applyRule_state_or t (applyRule t st _)
        { state := HighlighterState.List, pattern := runMatcher listBulletAt, useState := true } with h2 | h2
    · rw [h2, applyRule_state_of_not_useState _ _ _ rfl]
      exact Or.inl rfl
    · rw [h2]
      exact Or.inr rfl
  · rw [h]
    exact Or.inr rfl

theorem dropWhile_eq_self_of {p : Char → Bool} {t : List Char}
    (h : ∀ c ∈ t, p c = false) : t.dropWhile p = t := by
  cases t with
  | nil => rfl
  | cons c t2 => simp [List.dropWhile_cons, h c (List.mem_cons_self c t2)]

theorem pyStrip_eq_self {p : Char → Bool} {t : List Char}
    (h : ∀ c ∈ t, p c = false) : pyStrip p t = t := by
  unfold pyStrip
  rw [dropWhile_eq_self_of h, dropWhile_eq_self_of, List.reverse_reverse]
  intro c hc
  exact h c (List.mem_reverse.mp hc)

theorem pyStrip_eq_nil {p : Char → Bool} {t : List Char}
    (h : ∀ c ∈ t, p c = true) : pyStrip p t = [] := by
  unfold pyStrip
  rw [List.dropWhile_eq_nil_iff.mpr h]
  rfl

theorem all_eq_cons {t : List Char} {c : Char} (hne : t ≠ [])
    (hall : t.all (fun x => x == c) = true) :
    ∃ t2, t = c :: t2 ∧ t2.all (fun x => x == c) = true := by
  cases t with
  | nil => exact absurd rfl hne
  | cons a t2 =>
    rw [List.all_cons, Bool.and_eq_true, beq_iff_eq] at hall
    exact ⟨t2, by rw [hall.1], hall.2⟩

theorem atxMatch_cons_none {c : Char} (t2 : List Char) (h : (c == '#') = false) :
    atxMatch (c :: t2) = none := by
  unfold atxMatch
  simp [leadRun, h]

theorem patternH1Match_of_all {t : List Char} (hne : t ≠ [])
    (hall : t.all (fun x => x == '=') = true) : patternH1Match t = true := by
  rw [patternH1Match, hall]
  simp [hne]

theorem patternH2Match_of_all {t : List Char} (hne : t ≠ [])
    (hall : t.all (fun x => x == '-') = true) : patternH2Match t = true := by
  rw [patternH2Match, hall]
  simp [hne]

theorem patternH1Match_cons_false {c : Char} (t2 : List Char) (h : (c == '=') = false) :
    patternH1Match (c :: t2) = false := by
  simp [patternH1Match, List.all_cons, h]

theorem patternH2Match_cons_false {c : Char} (t2 : List Char) (h : (c == '-') = false) :
    patternH2Match (c :: t2) = false := by
  simp [patternH2Match, List.all_cons, h]

theorem fenceMatch_cons_false {c : Char} (t2 : List Char) (h : ('\x60' == c) = false) :
    fenceMatch (c :: t2) = false := by
  simp [fenceMatch, litAt, List.isPrefixOf, h]

theorem startsWith_open_cons_false {c : Char} (t2 : List Char) (h : ('<' == c) = false) :
    startsWithL (c :: t2) openMarker = false := by
  simp [startsWithL, openMarker, List.isPrefixOf, h]

theorem endsWith_close_false {t : List Char} (h : ∀ x ∈ t, ¬x = '>') :
    endsWithL t closeMarker = false := by
  by_contra hx
  rw [Bool.not_eq_false, endsWithL] at hx
  have hs := List.isSuffixOf_iff_suffix.mp hx
  exact h '>' (hs.sublist.mem (by simp [closeMarker])) rfl

theorem wordChar_not_ws {c : Char} (h : isWordChar c = true) : isWsChar c = false := by
  by_contra hx
  rw [Bool.not_eq_false, isWsChar] at hx
  simp only [Bool.or_eq_true, beq_iff_eq] at hx
  rcases hx with ((((h1 | h1) | h1) | h1) | h1) | h1 <;> subst h1 <;> exact absurd h (by decide)

theorem fence_no_ws {t : List Char} (hf : fenceMatch t = true) :
    ∀ c ∈ t, isWsChar c = false := by
  rw [fenceMatch, Bool.and_eq_true] at hf
  obtain ⟨h1, h2⟩ := hf
  rw [litAt, List.drop_zero, List.isPrefixOf_iff_prefix] at h1
  obtain ⟨s, hs⟩ := h1
  intro c hc
  rw [← hs, List.mem_append] at hc
  rcases hc with hc | hc
  · simp only [List.mem_cons, List.not_mem_nil, or_false] at hc
    rcases hc with h3 | h3 | h3 <;> subst h3 <;> decide
  · have hdrop : t.drop 3 = s := by
      rw [← hs]
      rfl
    rw [hdrop, List.all_eq_true] at h2
    exact wordChar_not_ws (h2 c hc)

theorem fenceMatch_false_of_strip_lt {t : List Char}
    (h : (pyStrip isWsChar t).length < t.length) : fenceMatch t = false := by
  by_contra hx
  rw [Bool.not_eq_false] at hx
  rw [pyStrip_eq_self (fence_no_ws hx)] at h
  exact Nat.lt_irrefl _ h

theorem commentBlockStage_dirty (t : List Char) (ps : HighlighterState) (st : HLSt) :
    (commentBlockStage t ps st).dirty = st.dirty := by
  unfold commentBlockStage
  dsimp only
  split
  · rfl
  · split
    · rfl
    · split <;> rfl

theorem commentBlockStage_userState (t : List Char) (ps : HighlighterState) (st : HLSt) :
    (commentBlockStage t ps st).userState = st.userState := by
  unfold commentBlockStage
  dsimp only
  split
  · rfl
  · split
    · rfl
    · split <;> rfl

theorem commentBlockStage_prevUserState (t : List Char) (ps : HighlighterState) (st : HLSt) :
    (commentBlockStage t ps st).prevUserState = st.prevUserState := by
  unfold commentBlockStage
  dsimp only
  split
  · rfl
  · split
    · rfl
    · split <;> rfl

theorem codeBlockStage_dirty (t : List Char) (ps : HighlighterState) (st : HLSt) :
    (codeBlockStage t ps st).dirty = st.dirty := by
  unfold codeBlockStage
  split
  · rfl
  · split <;> rfl

theorem codeBlockStage_userState (t : List Char) (ps : HighlighterState) (st : HLSt) :
    (codeBlockStage t ps st).userState = st.userState := by
  unfold codeBlockStage
  split
  · rfl
  · split <;> rfl

theorem codeBlockStage_prevUserState (t : List Char) (ps : HighlighterState) (st : HLSt) :
    (codeBlockStage t ps st).prevUserState = st.prevUserState := by
  unfold codeBlockStage
  split
  · rfl
  · split <;> rfl

theorem commentBlockStage_id {t : List Char} {ps : HighlighterState} {st : HLSt}
    (h1 : startsWithL (pyStrip isWsChar t) openMarker = false)
    (h2 : endsWithL (pyStrip isWsChar t) closeMarker = false)
    (h3 : (ps == HighlighterState.Comment) = false) :
    commentBlockStage t ps st = st := by
  unfold commentBlockStage
  simp [h1, h2, h3]

theorem codeBlockStage_id {t : List Char} {ps : HighlighterState} {st : HLSt}
    (h1 : fenceMatch t = false)
    (h2 : (ps == HighlighterState.CodeBlock) = false) :
    codeBlockStage t ps st = st := by
  unfold codeBlockStage
  simp [h1, h2]

theorem highlightHeadline_atx (text prevText nextText : List Char)
    (prevState : HighlighterState) (prevId : Nat) (st : HLSt) (cnt capStart capLen : Nat)
    (hatx : atxMatch text = some (cnt, capStart, capLen)) :
    highlightHeadline text prevText nextText prevState prevId st =
      { st with
        fmts := setFormat
          (setFormat st.fmts 0 text.length
            { formatFor HighlighterState.Masked with
              pointSize := (formatFor (HighlighterState.H1 + min cnt 6 - 1)).pointSize })
          capStart capLen (formatFor (HighlighterState.H1 + min cnt 6 - 1)),
        state := HighlighterState.H1 + min cnt 6 - 1,
        userState := HighlighterState.H1 + min cnt 6 - 1 } := by
  unfold highlightHeadline
  rw [hatx]

theorem highlightHeadline_eq_case (text prevText nextText : List Char)
    (prevState : HighlighterState) (prevId : Nat) (st : HLSt)
    (hatx : atxMatch text = none) (h1 : patternH1Match text = true)
    (hps : (prevState == HighlighterState.H1 || prevState == HighlighterState.Default) = true)
    (hpt : (pyStrip setextStripChar prevText).isEmpty = false) :
    highlightHeadline text prevText nextText prevState prevId st =
      { st with
        fmts := setFormat st.fmts 0 text.length
          { formatFor HighlighterState.Masked with
            pointSize := (formatFor HighlighterState.H1).pointSize },
        state := HighlighterState.HeadlineEnd,
        prevUserState := some HighlighterState.H1,
        dirty := addDirtyBlock st.dirty prevId } := by
  unfold highlightHeadline
  rw [hatx]
  simp [h1, hps, hpt]

theorem highlightHeadline_dash_case (text prevText nextText : List Char)
    (prevState : HighlighterState) (prevId : Nat) (st : HLSt)
    (hatx : atxMatch text = none) (h1 : patternH1Match text = false)
    (h2 : patternH2Match text = true)
    (hps : (prevState == HighlighterState.H2 || prevState == HighlighterState.Default) = true)
    (hpt : (pyStrip setextStripChar prevText).isEmpty = false) :
    highlightHeadline text prevText nextText prevState prevId st =
      { st with
        fmts := setFormat st.fmts 0 text.length
          { formatFor HighlighterState.Masked with
            pointSize := (formatFor HighlighterState.H2).pointSize },
        state := HighlighterState.HeadlineEnd,
        prevUserState := some HighlighterState.H2,
        dirty := addDirtyBlock st.dirty prevId } := by
  unfold highlightHeadline
  rw [hatx]
  simp [h1, h2, hps, hpt]

theorem highlightHeadline_eq_skip (text prevText nextText : List Char)
    (prevState : HighlighterState) (prevId : Nat) (st : HLSt)
    (hatx : atxMatch text = none) (h1 : patternH1Match text = true)
    (hcond : ((prevState == HighlighterState.H1 || prevState == HighlighterState.Default) &&
              !(pyStrip setextStripChar prevText).isEmpty) = false) :
    highlightHeadline text prevText nextText prevState prevId st = st := by
  unfold highlightHeadline
  rw [hatx]
  simp only [h1, if_true]
  simp [hcond]

theorem highlightHeadline_dash_skip (text prevText nextText : List Char)
    (prevState : HighlighterState) (prevId : Nat) (st : HLSt)
    (hatx : atxMatch text = none) (h1 : patternH1Match text = false)
    (h2 : patternH2Match text = true)
    (hcond : ((prevState == HighlighterState.H2 || prevState == HighlighterState.Default) &&
              !(pyStrip setextStripChar prevText).isEmpty) = false) :
    highlightHeadline text prevText nextText prevState prevId st = st := by
  unfold highlightHeadline
  rw [hatx]
  simp [h1, h2, hcond]

theorem atxMatch_of_runs {t : List Char} {cnt m : Nat}
    (hc : leadRun (fun c => c == '#') t = cnt) (hc1 : 1 ≤ cnt)
    (hm : leadRun isWsChar (t.drop cnt) = m) (hm1 : 1 ≤ m)
    (hr : t.drop (cnt + m) ≠ []) :
    atxMatch t = some (cnt, cnt + m, minK (t.drop (cnt + m))) := by
  have hc0 : cnt ≠ 0 := by omega
  have hm0 : m ≠ 0 := by omega
  unfold atxMatch
  simp [hc, hm, hc0, hm0, hr]

theorem timerTickOrder_eq : ∀ l : List Nat, timerTickOrder l = l
  | [] => rfl
  | b :: rest => by rw [timerTickOrder, timerTickOrder_eq rest]

theorem mem_addDirtyBlock (dq : List Nat) (b : Nat) : b ∈ addDirtyBlock dq b := by
  unfold addDirtyBlock
  split
  · assumption
  · simp

theorem addDirtyBlock_of_mem {dq : List Nat} {b : Nat} (h : b ∈ dq) :
    addDirtyBlock dq b = dq := by
  unfold addDirtyBlock
  simp [h]

/-- C3: for every line whose previous end_state is CodeBlock and whose text
does not match the fence pattern, the final emitted style covers the whole
line with the CodeBlock format — so no inline rule's styling survives — and
the line's end_state is CodeBlock. -/
theorem inside_code_block_paints_whole_line
    (prevId : Nat) (dq : List Nat) (text prevText nextText : List Char)
    (hf : fenceMatch text = false) :
    (highlightBlock prevId dq text prevText nextText HighlighterState.CodeBlock).state =
      HighlighterState.CodeBlock ∧
    ∀ i, i < text.length →
      (highlightBlock prevId dq text prevText nextText HighlighterState.CodeBlock).fmts i =
        formatFor HighlighterState.CodeBlock := by
  unfold highlightBlock codeBlockStage
  simp only [hf, Bool.false_eq_true, if_false, beq_self_eq_true, if_true]
  exact ⟨by trivial, fun i hi => by simp [setFormat, hi]⟩

theorem inside_code_block_paints_whole_line_witness :
    fenceMatch ("x = [1]*3".data) = false ∧
    (highlightBlock 0 [] ("x = [1]*3".data) [] [] HighlighterState.CodeBlock).state =
      HighlighterState.CodeBlock ∧
    (highlightBlock 0 [] ("x = [1]*3".data) [] [] HighlighterState.CodeBlock).fmts 4 =
      formatFor HighlighterState.CodeBlock :=
  ⟨by decide,
   (inside_code_block_paints_whole_line 0 [] ("x = [1]*3".data) [] [] (by decide)).1,
   (inside_code_block_paints_whole_line 0 [] ("x = [1]*3".data) [] [] (by decide)).2 4 (by decide)⟩

/-- C8: the dirty queue is idempotent under enqueue — re-adding a queued
block leaves the queue unchanged, a duplicate-free queue stays
duplicate-free, enqueuing twice equals enqueuing once, and a block
enqueued twice before a drain is reprocessed exactly once during the
drain. -/
theorem dirty_queue_idempotent (dq : List Nat) (b : Nat) (hd : dq.Nodup) :
    (b ∈ dq → addDirtyBlock dq b = dq) ∧
    (addDirtyBlock dq b).Nodup ∧
    addDirtyBlock (addDirtyBlock dq b) b = addDirtyBlock dq b ∧
    (timerTickOrder (addDirtyBlock (addDirtyBlock dq b) b)).count b = 1 := by
  refine ⟨fun h => addDirtyBlock_of_mem h, ?_, ?_, ?_⟩
  · unfold addDirtyBlock
    split
    · exact hd
    · rename_i h
      simp [List.nodup_append, hd, h]
  · exact addDirtyBlock_of_mem (mem_addDirtyBlock dq b)
  · rw [addDirtyBlock_of_mem (mem_addDirtyBlock dq b), timerTickOrder_eq]
    unfold addDirtyBlock
    split
    · rename_i h
      exact List.count_eq_one_of_mem hd h
    · rename_i h
      rw [List.count_append]
      simp [List.count_eq_zero_of_not_mem h]

theorem dirty_queue_idempotent_witness :
    ([4, 9] : List Nat).Nodup ∧
    addDirtyBlock [4, 9] 9 = [4, 9] ∧
    addDirtyBlock (addDirtyBlock [4, 9] 7) 7 = addDirtyBlock [4, 9] 7 ∧
    (timerTickOrder (addDirtyBlock (addDirtyBlock [4, 9] 7) 7)).count 7 = 1 := by
  have h := dirty_queue_idempotent [4, 9] 7 (by decide)
  exact ⟨by decide, (dirty_queue_idempotent [4, 9] 9 (by decide)).1 (by decide),
    h.2.2.1, h.2.2.2⟩

theorem applyRule_state_of_no_match (t : List Char) (st : HLSt) (r : HighlightRule)
    (h : r.pattern t = []) : (applyRule t st r).state = st.state := by
  unfold applyRule
  split
  · rfl
  · simp [h, foldl_paintMatch_state]

theorem preRules_state_of_no_list (t : List Char) (st : HLSt)
    (hb : runMatcher listBulletAt t = []) (hn : runMatcher listNumberAt t = []) :
    (additionalRules preRules t st).state = st.state := by
  have e : additionalRules preRules t st = applyRule t (applyRule t (applyRule t (applyRule t
      (applyRule t st
      { state := HighlighterState.Masked, pattern := runMatcher refLinkHashAt })
      { state := HighlighterState.List, pattern := runMatcher listBulletAt, useState := true })
      { state := HighlighterState.List, pattern := runMatcher listNumberAt, useState := true })
      { state := HighlighterState.BlockQuote, pattern := runMatcher blockQuoteAt })
      { state := HighlighterState.HorizontalRuler, pattern := runMatcher horizontalRulerAt } := rfl
  rw [e, applyRule_state_of_not_useState _ _ _ rfl, applyRule_state_of_not_useState _ _ _ rfl,
      applyRule_state_of_no_match _ _ _ hn, applyRule_state_of_no_match _ _ _ hb,
      applyRule_state_of_not_useState _ _ _ rfl]

theorem highlightHeadline_noop (text prevText nextText : List Char)
    (ps : HighlighterState) (prevId : Nat) (st : HLSt)
    (hatx : atxMatch text = none) (h1 : patternH1Match text = false)
    (h2 : patternH2Match text = false) (hn1 : patternH1Match nextText = false)
    (hn2 : patternH2Match nextText = false) :
    highlightHeadline text prevText nextText ps prevId st = st := by
  unfold highlightHeadline
  rw [hatx]
  simp [h1, h2, hn1, hn2]

theorem commentBlockStage_state_of (t : List Char) (ps : HighlighterState) (st : HLSt)
    (h1 : startsWithL (pyStrip isWsChar t) openMarker = false)
    (h3 : (ps == HighlighterState.Comment) = false) :
    (commentBlockStage t ps st).state = st.state := by
  unfold commentBlockStage
  simp only [h1, h3, Bool.false_and, Bool.and_false, Bool.false_or, Bool.false_eq_true,
    if_false]
  split <;> rfl

/-- C2 (amended): a line matching the fence pattern gets end_state
CodeBlockEnd when the previous end_state is CodeBlock and CodeBlock
otherwise, and is painted Masked (inheriting CodeBlock's unset font size)
over its full length; a non-fence line after a CodeBlockEnd line is not
kept in code-block state — when no other state-setting construct matches
(list marker, ATX heading, setext underline, setext lookahead, comment
opener) its end_state is Default, though such constructs may still set
their own states (see the counterexample). -/
theorem fence_toggles_code_block_state
    (prevId : Nat) (dq : List Nat) (text prevText nextText : List Char)
    (ps : HighlighterState) :
    (fenceMatch text = true →
      (highlightBlock prevId dq text prevText nextText ps).state =
        (if ps == HighlighterState.CodeBlock then HighlighterState.CodeBlockEnd
         else HighlighterState.CodeBlock) ∧
      ∀ i, i < text.length →
        (highlightBlock prevId dq text prevText nextText ps).fmts i =
          { formatFor HighlighterState.Masked with
            pointSize := (formatFor HighlighterState.CodeBlock).pointSize }) ∧
    (fenceMatch text = false → ps = HighlighterState.CodeBlockEnd →
      runMatcher listBulletAt text = [] → runMatcher listNumberAt text = [] →
      atxMatch text = none →
      patternH1Match text = false → patternH2Match text = false →
      patternH1Match nextText = false → patternH2Match nextText = false →
      startsWithL (pyStrip isWsChar text) openMarker = false →
      (highlightBlock prevId dq text prevText nextText ps).state =
        HighlighterState.Default) := by
  constructor
  · intro hf
    unfold highlightBlock codeBlockStage
    simp only [hf, if_true]
    exact ⟨by trivial, fun i hi => by simp [setFormat, hi]⟩
  · intro hf hps hb hn hatx h1 h2 hn1 hn2 hcm
    subst hps
    unfold highlightBlock
    rw [codeBlockStage_id hf (by decide)]
    rw [commentBlockStage_state_of _ _ _ hcm (by decide)]
    unfold rulesPhase
    by_cases he : text.isEmpty = true
    · simp [he, initSt]
    · simp only [he, Bool.false_eq_true, if_false]
      rw [postRules_state, highlightHeadline_noop _ _ _ _ _ _ hatx h1 h2 hn1 hn2,
          preRules_state_of_no_list _ _ hb hn]
      rfl

/-- C2 counterexample: the non-fence line "# x" directly after a
CodeBlockEnd line has end_state H1, not Default, refuting the unconditional
"returns to Default end_state" for lines following a CodeBlockEnd line. -/
theorem fence_following_line_not_default_counterexample :
    (highlightBlock 0 [] ("# x".data) [] [] HighlighterState.CodeBlockEnd).state =
      HighlighterState.H1 ∧
    HighlighterState.H1 ≠ HighlighterState.Default := by
  exact ⟨by decide, by decide⟩

theorem fence_toggles_code_block_state_witness :
    fenceMatch ("\x60\x60\x60py".data) = true ∧
    (highlightBlock 0 [] ("\x60\x60\x60py".data) [] [] HighlighterState.Default).state =
      HighlighterState.CodeBlock ∧
    (highlightBlock 0 [] ("\x60\x60\x60py".data) [] [] HighlighterState.CodeBlock).state =
      HighlighterState.CodeBlockEnd ∧
    (highlightBlock 0 [] ("\x60\x60\x60py".data) [] [] HighlighterState.Default).fmts 0 =
      { formatFor HighlighterState.Masked with
        pointSize := (formatFor HighlighterState.CodeBlock).pointSize } ∧
    (highlightBlock 0 [] ("hello".data) [] [] HighlighterState.CodeBlockEnd).state =
      HighlighterState.Default := by
  refine ⟨by decide, ?_, ?_, ?_, ?_⟩
  · have h := (fence_toggles_code_block_state 0 [] ("\x60\x60\x60py".data) [] []
      HighlighterState.Default).1 (by decide)
    rw [h.1]
    decide
  · have h := (fence_toggles_code_block_state 0 [] ("\x60\x60\x60py".data) [] []
      HighlighterState.CodeBlock).1 (by decide)
    rw [h.1]
    decide
  · exact ((fence_toggles_code_block_state 0 [] ("\x60\x60\x60py".data) [] []
      HighlighterState.Default).1 (by decide)).2 0 (by decide)
  · exact (fence_toggles_code_block_state 0 [] ("hello".data) [] []
      HighlighterState.CodeBlockEnd).2 (by decide) rfl (by decide) (by decide) (by decide)
      (by decide) (by decide) (by decide) (by decide) (by decide)

/-- C1 (amended): for a line entirely of equals signs whose previous
end_state is H1 or Default and whose previous line is non-empty after
`strip(' =-')` (the code's check, rather than plain whitespace trimming),
one pass sets this line's end_state to HeadlineEnd, forces the previous
line's resolved_state to H1, enqueues the previous block into the dirty
queue, and the headline pass paints the whole line Masked with H1's font
size; symmetrically, a line entirely of dashes with previous end_state H2
or Default resolves the previous line to H2 and enqueues it. -/
theorem setext_underline_resolves_previous_heading
    (prevId : Nat) (dq : List Nat) (text prevText nextText : List Char)
    (ps : HighlighterState) :
    (text ≠ [] → text.all (fun c => c == '=') = true →
     (ps = HighlighterState.H1 ∨ ps = HighlighterState.Default) →
     (pyStrip setextStripChar prevText).isEmpty = false →
     (highlightBlock prevId dq text prevText nextText ps).state =
       HighlighterState.HeadlineEnd ∧
     (highlightBlock prevId dq text prevText nextText ps).prevUserState =
       some HighlighterState.H1 ∧
     (highlightBlock prevId dq text prevText nextText ps).dirty =
       addDirtyBlock dq prevId ∧
     ∀ st : HLSt, ∀ i, i < text.length →
       (highlightHeadline text prevText nextText ps prevId st).fmts i =
         { formatFor HighlighterState.Masked with
           pointSize := (formatFor HighlighterState.H1).pointSize }) ∧
    (text ≠ [] → text.all (fun c => c == '-') = true →
     (ps = HighlighterState.H2 ∨ ps = HighlighterState.Default) →
     (pyStrip setextStripChar prevText).isEmpty = false →
     (highlightBlock prevId dq text prevText nextText ps).state =
       HighlighterState.HeadlineEnd ∧
     (highlightBlock prevId dq text prevText nextText ps).prevUserState =
       some HighlighterState.H2 ∧
     (highlightBlock prevId dq text prevText nextText ps).dirty =
       addDirtyBlock dq prevId ∧
     ∀ st : HLSt, ∀ i, i < text.length →
       (highlightHeadline text prevText nextText ps prevId st).fmts i =
         { formatFor HighlighterState.Masked with
           pointSize := (formatFor HighlighterState.H2).pointSize }) := by
  constructor
  · intro hne hall hpsor hpt
    obtain ⟨t2, hteq, hall2⟩ := all_eq_cons hne hall
    subst hteq
    rw [List.all_eq_true] at hall
    have hatx : atxMatch ('=' :: t2) = none := atxMatch_cons_none t2 (by decide)
    have h1 : patternH1Match ('=' :: t2) = true :=
      patternH1Match_of_all (by simp) (by rw [List.all_eq_true]; exact hall)
    have hps : (ps == HighlighterState.H1 || ps == HighlighterState.Default) = true := by
      rcases hpsor with h | h <;> subst h <;> decide
    have hnows : ∀ c ∈ '=' :: t2, isWsChar c = false := by
      intro c hc
      have hc2 : c = '=' := beq_iff_eq.mp (hall c hc)
      subst hc2
      decide
    have hstrip : pyStrip isWsChar ('=' :: t2) = '=' :: t2 := pyStrip_eq_self hnows
    have hcm1 : startsWithL (pyStrip isWsChar ('=' :: t2)) openMarker = false := by
      rw [hstrip]
      exact startsWith_open_cons_false t2 (by decide)
    have hcm2 : endsWithL (pyStrip isWsChar ('=' :: t2)) closeMarker = false := by
      rw [hstrip]
      apply endsWith_close_false
      intro x hx hgt
      have := beq_iff_eq.mp (hall x hx)
      rw [hgt] at this
      exact absurd this (by decide)
    have hcm3 : (ps == HighlighterState.Comment) = false := by
      rcases hpsor with h | h <;> subst h <;> decide
    have hfence : fenceMatch ('=' :: t2) = false := fenceMatch_cons_false t2 (by decide)
    have hpscb : (ps == HighlighterState.CodeBlock) = false := by
      rcases hpsor with h | h <;> subst h <;> decide
    have hpipe : highlightBlock prevId dq ('=' :: t2) prevText nextText ps =
        additionalRules postRules ('=' :: t2)
          (highlightHeadline ('=' :: t2) prevText nextText ps prevId
            (additionalRules preRules ('=' :: t2) (initSt dq))) := by
      unfold highlightBlock
      rw [codeBlockStage_id hfence hpscb, commentBlockStage_id hcm1 hcm2 hcm3]
      unfold rulesPhase
      simp only [List.isEmpty_cons, Bool.false_eq_true, if_false]
    refine ⟨?_, ?_, ?_, ?_⟩
    · rw [hpipe, postRules_state,
          highlightHeadline_eq_case _ _ _ _ _ _ hatx h1 hps hpt]
    · rw [hpipe, additionalRules_prevUserState,
          highlightHeadline_eq_case _ _ _ _ _ _ hatx h1 hps hpt]
    · rw [hpipe, additionalRules_dirty,
          highlightHeadline_eq_case _ _ _ _ _ _ hatx h1 hps hpt]
      show addDirtyBlock (additionalRules preRules ('=' :: t2) (initSt dq)).dirty prevId = _
      rw [additionalRules_dirty]
      rfl
    · intro st i hi
      rw [highlightHeadline_eq_case _ _ _ _ _ _ hatx h1 hps hpt]
      simp [setFormat, hi]
      intro h
      exact absurd hi (by simp only [List.length_cons]; omega)
  · intro hne hall hpsor hpt
    obtain ⟨t2, hteq, hall2⟩ := all_eq_cons hne hall
    subst hteq
    rw [List.all_eq_true] at hall
    have hatx : atxMatch ('-' :: t2) = none := atxMatch_cons_none t2 (by decide)
    have h1 : patternH1Match ('-' :: t2) = false := patternH1Match_cons_false t2 (by decide)
    have h2 : patternH2Match ('-' :: t2) = true :=
      patternH2Match_of_all (by simp) (by rw [List.all_eq_true]; exact hall)
    have hps : (ps == HighlighterState.H2 || ps == HighlighterState.Default) = true := by
      rcases hpsor with h | h <;> subst h <;> decide
    have hnows : ∀ c ∈ '-' :: t2, isWsChar c = false := by
      intro c hc
      have hc2 : c = '-' := beq_iff_eq.mp (hall c hc)
      subst hc2
      decide
    have hstrip : pyStrip isWsChar ('-' :: t2) = '-' :: t2 := pyStrip_eq_self hnows
    have hcm1 : startsWithL (pyStrip isWsChar ('-' :: t2)) openMarker = false := by
      rw [hstrip]
      exact startsWith_open_cons_false t2 (by decide)
    have hcm2 : endsWithL (pyStrip isWsChar ('-' :: t2)) closeMarker = false := by
      rw [hstrip]
      apply endsWith_close_false
      intro x hx hgt
      have := beq_iff_eq.mp (hall x hx)
      rw [hgt] at this
      exact absurd this (by decide)
    have hcm3 : (ps == HighlighterState.Comment) = false := by
      rcases hpsor with h | h <;> subst h <;> decide
    have hfence : fenceMatch ('-' :: t2) = false := fenceMatch_cons_false t2 (by decide)
    have hpscb : (ps == HighlighterState.CodeBlock) = false := by
      rcases hpsor with h | h <;> subst h <;> decide
    have hpipe : highlightBlock prevId dq ('-' :: t2) prevText nextText ps =
        additionalRules postRules ('-' :: t2)
          (highlightHeadline ('-' :: t2) prevText nextText ps prevId
            (additionalRules preRules ('-' :: t2) (initSt dq))) := by
      unfold highlightBlock
      rw [codeBlockStage_id hfence hpscb, commentBlockStage_id hcm1 hcm2 hcm3]
      unfold rulesPhase
      simp only [List.isEmpty_cons, Bool.false_eq_true, if_false]
    refine ⟨?_, ?_, ?_, ?_⟩
    · rw [hpipe, postRules_state,
          highlightHeadline_dash_case _ _ _ _ _ _ hatx h1 h2 hps hpt]
    · rw [hpipe, additionalRules_prevUserState,
          highlightHeadline_dash_case _ _ _ _ _ _ hatx h1 h2 hps hpt]
    · rw [hpipe, additionalRules_dirty,
          highlightHeadline_dash_case _ _ _ _ _ _ hatx h1 h2 hps hpt]
      show addDirtyBlock (additionalRules preRules ('-' :: t2) (initSt dq)).dirty prevId = _
      rw [additionalRules_dirty]
      rfl
    · intro st i hi
      rw [highlightHeadline_dash_case _ _ _ _ _ _ hatx h1 h2 hps hpt]
      simp [setFormat, hi]
      intro h
      exact absurd hi (by simp only [List.length_cons]; omega)

/-- C1 counterexample: the claim speaks of a previous line with non-empty
trimmed text, but the code checks `strip(' =-')`: for the underline "==="
after the previous line "- -" (whitespace-trimmed text non-empty) with
previous end_state Default, nothing is resolved or enqueued and the line's
end_state stays Default. -/
theorem setext_trimmed_only_counterexample :
    pyStrip isWsChar ("- -".data) ≠ [] ∧
    patternH1Match ("===".data) = true ∧
    (highlightBlock 0 [] ("===".data) ("- -".data) [] HighlighterState.Default).state =
      HighlighterState.Default ∧
    (highlightBlock 0 [] ("===".data) ("- -".data) [] HighlighterState.Default).prevUserState =
      none ∧
    (highlightBlock 0 [] ("===".data) ("- -".data) [] HighlighterState.Default).dirty = [] := by
  exact ⟨by decide, by decide, by decide, by decide, by decide⟩

theorem setext_underline_resolves_previous_heading_witness :
    (pyStrip setextStripChar ("My Title".data)).isEmpty = false ∧
    (highlightBlock 9 [] ("===".data) ("My Title".data) [] HighlighterState.Default).state =
      HighlighterState.HeadlineEnd ∧
    (highlightBlock 9 [] ("===".data) ("My Title".data) [] HighlighterState.Default).prevUserState =
      some HighlighterState.H1 ∧
    (highlightBlock 9 [] ("===".data) ("My Title".data) [] HighlighterState.Default).dirty =
      addDirtyBlock [] 9 ∧
    (highlightHeadline ("===".data) ("My Title".data) [] HighlighterState.Default 9
      (initSt [])).fmts 2 =
      { formatFor HighlighterState.Masked with
        pointSize := (formatFor HighlighterState.H1).pointSize } ∧
    (highlightBlock 9 [] ("---".data) ("My Title".data) [] HighlighterState.Default).prevUserState =
      some HighlighterState.H2 := by
  have h := (setext_underline_resolves_previous_heading 9 [] ("===".data) ("My Title".data) []
    HighlighterState.Default).1 (by decide) (by decide) (Or.inr rfl) (by decide)
  have h2 := (setext_underline_resolves_previous_heading 9 [] ("---".data) ("My Title".data) []
    HighlighterState.Default).2 (by decide) (by decide) (Or.inr rfl) (by decide)
  exact ⟨by decide, h.1, h.2.1, h.2.2.1, h.2.2.2 (initSt []) 2 (by decide), h2.2.1⟩

/-- C9: the setext backward check decides emptiness of the previous line by
`strip(' =-')`, not by whitespace trimming: when the previous line consists
only of spaces, equals signs and dashes, the strip result is empty, so for
an underline line of either kind no heading resolution occurs and the
previous line is not enqueued. -/
theorem setext_backward_check_strips_marker_chars
    (prevId : Nat) (dq : List Nat) (text prevText nextText : List Char)
    (ps : HighlighterState)
    (hu : patternH1Match text = true ∨ patternH2Match text = true)
    (hprev : ∀ c ∈ prevText, setextStripChar c = true) :
    pyStrip setextStripChar prevText = [] ∧
    (highlightBlock prevId dq text prevText nextText ps).dirty = dq ∧
    (highlightBlock prevId dq text prevText nextText ps).prevUserState = none := by
  have hstrip : pyStrip setextStripChar prevText = [] := pyStrip_eq_nil hprev
  have hcond1 : ((ps == HighlighterState.H1 || ps == HighlighterState.Default) &&
      !(pyStrip setextStripChar prevText).isEmpty) = false := by
    rw [hstrip]
    simp
  have hcond2 : ((ps == HighlighterState.H2 || ps == HighlighterState.Default) &&
      !(pyStrip setextStripChar prevText).isEmpty) = false := by
    rw [hstrip]
    simp
  have hhl : ∀ st : HLSt, highlightHeadline text prevText nextText ps prevId st = st := by
    intro st
    by_cases h1 : patternH1Match text = true
    · have hx := h1
      rw [patternH1Match, Bool.and_eq_true] at hx
      have hne : text ≠ [] := by simpa using hx.1
      obtain ⟨t2, hteq, _⟩ := all_eq_cons hne hx.2
      subst hteq
      exact highlightHeadline_eq_skip _ _ _ _ _ _ (atxMatch_cons_none t2 (by decide)) h1 hcond1
    · have h2 : patternH2Match text = true := hu.resolve_left h1
      have hx := h2
      rw [patternH2Match, Bool.and_eq_true] at hx
      have hne : text ≠ [] := by simpa using hx.1
      obtain ⟨t2, hteq, _⟩ := all_eq_cons hne hx.2
      subst hteq
      exact highlightHeadline_dash_skip _ _ _ _ _ _ (atxMatch_cons_none t2 (by decide))
        (patternH1Match_cons_false t2 (by decide)) h2 hcond2
  refine ⟨hstrip, ?_, ?_⟩
  · unfold highlightBlock
    rw [codeBlockStage_dirty, commentBlockStage_dirty]
    unfold rulesPhase
    by_cases he : text.isEmpty = true
    · simp [he, initSt]
    · simp only [he, Bool.false_eq_true, if_false]
      rw [additionalRules_dirty, hhl, additionalRules_dirty]
      rfl
  · unfold highlightBlock
    rw [codeBlockStage_prevUserState, commentBlockStage_prevUserState]
    unfold rulesPhase
    by_cases he : text.isEmpty = true
    · simp [he, initSt]
    · simp only [he, Bool.false_eq_true, if_false]
      rw [additionalRules_prevUserState, hhl, additionalRules_prevUserState]
      rfl

theorem setext_backward_check_strips_marker_chars_witness :
    pyStrip isWsChar ("- -".data) ≠ [] ∧
    pyStrip setextStripChar ("- -".data) = [] ∧
    (highlightBlock 3 [] ("===".data) ("- -".data) [] HighlighterState.Default).dirty = [] ∧
    (highlightBlock 3 [] ("===".data) ("- -".data) []
      HighlighterState.Default).prevUserState = none := by
  have h := setext_backward_check_strips_marker_chars 3 [] ("===".data) ("- -".data) []
    HighlighterState.Default (Or.inl (by decide)) (by decide)
  exact ⟨by decide, h.1, h.2.1, h.2.2⟩

/-- C10: when the comment-block resolver highlights a line it paints from
offset 0 for the length of the whitespace-stripped text, not the original
text: inside a multi-line comment (previous end_state Comment, line not an
opener), only the first strip-length characters become Comment and the
rest keep the styling produced by the rule and headline passes. -/
theorem comment_paint_uses_stripped_length
    (prevId : Nat) (dq : List Nat) (text prevText nextText : List Char)
    (hlt : (pyStrip isWsChar text).length < text.length)
    (hstart : startsWithL (pyStrip isWsChar text) openMarker = false) :
    ∀ i, i < text.length →
      (highlightBlock prevId dq text prevText nextText HighlighterState.Comment).fmts i =
        if i < (pyStrip isWsChar text).length then formatFor HighlighterState.Comment
        else (rulesPhase prevId dq text prevText nextText HighlighterState.Comment).fmts i := by
  intro i hi
  unfold highlightBlock
  rw [codeBlockStage_id (fenceMatch_false_of_strip_lt hlt) (by decide)]
  unfold commentBlockStage
  simp only [hstart, Bool.false_and, Bool.false_eq_true, if_false, Bool.false_or]
  by_cases hew : endsWithL (pyStrip isWsChar text) closeMarker = true
  · simp only [hew, Bool.not_true, Bool.false_and, Bool.false_eq_true, if_false, if_true]
    simp [setFormat]
  · rw [Bool.not_eq_true] at hew
    simp only [hew, Bool.not_false, Bool.true_and, beq_self_eq_true, if_true]
    simp [setFormat]

theorem comment_paint_uses_stripped_length_witness :
    (pyStrip isWsChar (" still inside ".data)).length <
      (" still inside ".data : List Char).length ∧
    (highlightBlock 0 [] (" still inside ".data) [] [] HighlighterState.Comment).fmts 0 =
      formatFor HighlighterState.Comment ∧
    (highlightBlock 0 [] (" still inside ".data) [] [] HighlighterState.Comment).fmts 13 =
      (rulesPhase 0 [] (" still inside ".data) [] [] HighlighterState.Comment).fmts 13 := by
  have h := comment_paint_uses_stripped_length 0 [] (" still inside ".data) [] []
    (by decide) (by decide)
  refine ⟨by decide, ?_, ?_⟩
  · have h0 := h 0 (by decide)
    rw [h0, if_pos (by decide)]
  · have h13 := h 13 (by decide)
    rw [h13, if_neg (by decide)]

/-- C4: for a line of leading hashes, whitespace and non-empty content the
headline pass assigns level min(hash count, 6): it sets both the end_state
and the resolved_state to H{level}, paints the whole match (the whole
line) Masked with the level's font size, and paints the lazily captured
content group with the H{level} format. -/
theorem atx_heading_level_capped
    (text prevText nextText : List Char) (ps : HighlighterState) (prevId : Nat)
    (st : HLSt) (cnt m : Nat)
    (hc : leadRun (fun c => c == '#') text = cnt) (hc1 : 1 ≤ cnt)
    (hm : leadRun isWsChar (text.drop cnt) = m) (hm1 : 1 ≤ m)
    (hr : text.drop (cnt + m) ≠ []) :
    ((highlightHeadline text prevText nextText ps prevId st).state =
       HighlighterState.H1 + min cnt 6 - 1 ∧
     (highlightHeadline text prevText nextText ps prevId st).userState =
       HighlighterState.H1 + min cnt 6 - 1) ∧
    ∀ i, i < text.length →
      (highlightHeadline text prevText nextText ps prevId st).fmts i =
        if cnt + m ≤ i ∧ i < cnt + m + minK (text.drop (cnt + m)) then
          formatFor (HighlighterState.H1 + min cnt 6 - 1)
        else
          { formatFor HighlighterState.Masked with
            pointSize := (formatFor (HighlighterState.H1 + min cnt 6 - 1)).pointSize } := by
  have hax := atxMatch_of_runs hc hc1 hm hm1 hr
  rw [highlightHeadline_atx _ _ _ _ _ _ _ _ _ hax]
  refine ⟨⟨rfl, rfl⟩, ?_⟩
  intro i hi
  by_cases hcap : cnt + m ≤ i ∧ i < cnt + m + minK (text.drop (cnt + m))
  · simp [setFormat, hcap]
  · simp [setFormat, hcap, hi]

theorem atx_heading_level_capped_witness :
    leadRun (fun c => c == '#') ("####### deep".data) = 7 ∧
    (highlightHeadline ("####### deep".data) [] [] HighlighterState.Default 0
      (initSt [])).state = HighlighterState.H6 ∧
    (highlightHeadline ("####### deep".data) [] [] HighlighterState.Default 0
      (initSt [])).userState = HighlighterState.H6 ∧
    (highlightHeadline ("####### deep".data) [] [] HighlighterState.Default 0
      (initSt [])).fmts 0 =
      { formatFor HighlighterState.Masked with
        pointSize := (formatFor HighlighterState.H6).pointSize } ∧
    (highlightHeadline ("####### deep".data) [] [] HighlighterState.Default 0
      (initSt [])).fmts 8 = formatFor HighlighterState.H6 := by
  have h := atx_heading_level_capped ("####### deep".data) [] [] HighlighterState.Default 0
    (initSt []) 7 1 (by decide) (by decide) (by decide) (by decide) (by decide)
  refine ⟨by decide, ?_, ?_, ?_, ?_⟩
  · rw [h.1.1]
    decide
  · rw [h.1.2]
    decide
  · rw [h.2 0 (by decide), if_neg (by decide)]
    decide
  · rw [h.2 8 (by decide), if_pos (by decide)]
    decide

theorem highlightHeadline_congr (text : List Char) (ps : HighlighterState) (prevId : Nat)
    (st : HLSt) (pt1 pt2 nt1 nt2 : List Char)
    (hp : (pyStrip setextStripChar pt1).isEmpty = (pyStrip setextStripChar pt2).isEmpty)
    (hn1 : patternH1Match nt1 = patternH1Match nt2)
    (hn2 : patternH2Match nt1 = patternH2Match nt2) :
    highlightHeadline text pt1 nt1 ps prevId st =
      highlightHeadline text pt2 nt2 ps prevId st := by
  unfold highlightHeadline
  cases hax : atxMatch text with
  | some v => rfl
  | none => simp only [hp, hn1, hn2]

/-- C5 (amended): the end_state of one pass is a function of the line's
text, the previous end_state, the emptiness of the previous line's text
after strip(' =-'), and whether the next line's text matches the setext
underline patterns: two runs agreeing on those inputs produce the same
end_state.  (It is not a function of the line's own text and previous
end_state alone; see the counterexample.) -/
theorem end_state_depends_on_neighbor_texts
    (prevId : Nat) (dq : List Nat) (text : List Char) (ps : HighlighterState)
    (pt1 pt2 nt1 nt2 : List Char)
    (hp : (pyStrip setextStripChar pt1).isEmpty = (pyStrip setextStripChar pt2).isEmpty)
    (hn1 : patternH1Match nt1 = patternH1Match nt2)
    (hn2 : patternH2Match nt1 = patternH2Match nt2) :
    (highlightBlock prevId dq text pt1 nt1 ps).state =
      (highlightBlock prevId dq text pt2 nt2 ps).state := by
  have hrp : rulesPhase prevId dq text pt1 nt1 ps = rulesPhase prevId dq text pt2 nt2 ps := by
    unfold rulesPhase
    by_cases he : text.isEmpty = true
    · simp [he]
    · simp only [he, Bool.false_eq_true, if_false]
      rw [highlightHeadline_congr text ps prevId _ pt1 pt2 nt1 nt2 hp hn1 hn2]
  unfold highlightBlock
  rw [hrp]

/-- C5 counterexample: the line "Title" with previous end_state Default
gets end_state Default when the next line is empty but end_state H1 when
the next line is "=": the end_state is not a function of only the line's
text and the previous end_state. -/
theorem end_state_next_line_dependence_counterexample :
    (highlightBlock 0 [] ("Title".data) [] [] HighlighterState.Default).state =
      HighlighterState.Default ∧
    (highlightBlock 0 [] ("Title".data) [] ("=".data) HighlighterState.Default).state =
      HighlighterState.H1 ∧
    HighlighterState.Default ≠ HighlighterState.H1 :=
  ⟨by decide, by decide, by decide⟩

theorem end_state_depends_on_neighbor_texts_witness :
    ((pyStrip setextStripChar ("ab".data)).isEmpty =
      (pyStrip setextStripChar ("cd e".data)).isEmpty) ∧
    (patternH1Match ("x".data) = patternH1Match ("yz".data)) ∧
    (patternH2Match ("x".data) = patternH2Match ("yz".data)) ∧
    (highlightBlock 0 [] ("Title".data) ("ab".data) ("x".data)
        HighlighterState.Default).state =
      (highlightBlock 0 [] ("Title".data) ("cd e".data) ("yz".data)
        HighlighterState.Default).state := by
  refine ⟨by decide, by decide, by decide, ?_⟩
  exact end_state_depends_on_neighbor_texts 0 [] ("Title".data) HighlighterState.Default
    ("ab".data) ("cd e".data) ("x".data) ("yz".data) (by decide) (by decide) (by decide)

/-- C6 (amended): for the line "**bold**" with previous end_state Default,
the star-Bold rule's capture group 1 spans the entire match, so the final
style paints the whole range [0, 8) — markup asterisks included — with the
Bold format; the Masked paint over the same span is immediately
overwritten and no Masked span survives. -/
theorem bold_line_final_spans :
    ((List.range 8).all (fun i =>
      (highlightBlock 0 [] ("**bold**".data) [] [] HighlighterState.Default).fmts i ==
        formatFor HighlighterState.Bold)) = true := by
  decide

/-- C6 counterexample: positions 0 and 6 of "**bold**" carry the Bold
format, not the Masked format the claim requires on [0,2) and [6,8). -/
theorem bold_masked_span_counterexample :
    (highlightBlock 0 [] ("**bold**".data) [] [] HighlighterState.Default).fmts 0 =
      formatFor HighlighterState.Bold ∧
    (highlightBlock 0 [] ("**bold**".data) [] [] HighlighterState.Default).fmts 6 =
      formatFor HighlighterState.Bold ∧
    formatFor HighlighterState.Bold ≠ formatFor HighlighterState.Masked :=
  ⟨by decide, by decide, by decide⟩

theorem atxMatch_pos {t : List Char} {cnt a b : Nat}
    (h : atxMatch t = some (cnt, a, b)) : 1 ≤ cnt := by
  unfold atxMatch at h
  dsimp only at h
  split at h
  · exact absurd h (by simp)
  · rename_i h1
    split at h
    · exact absurd h (by simp)
    · split at h
      · split at h
        · rw [Option.some.injEq, Prod.mk.injEq] at h
          omega
        · exact absurd h (by simp)
      · rw [Option.some.injEq, Prod.mk.injEq] at h
        omega

theorem highlightHeadline_state_cases (text prevText nextText : List Char)
    (ps : HighlighterState) (prevId : Nat) (st : HLSt) :
    (highlightHeadline text prevText nextText ps prevId st).state = st.state ∨
    (8 ≤ (highlightHeadline text prevText nextText ps prevId st).state ∧
     (highlightHeadline text prevText nextText ps prevId st).state ≤ 13) ∨
    (highlightHeadline text prevText nextText ps prevId st).state =
      HighlighterState.HeadlineEnd := by
  unfold highlightHeadline
  cases hax : atxMatch text with
  | some v =>
    obtain ⟨cnt, a, b⟩ := v
    have hpos := atxMatch_pos hax
    have hmin1 : 1 ≤ min cnt 6 := Nat.le_min.mpr ⟨hpos, by omega⟩
    have hmin2 : min cnt 6 ≤ 6 := Nat.min_le_right cnt 6
    right
    left
    dsimp only
    show 8 ≤ 8 + min cnt 6 - 1 ∧ 8 + min cnt 6 - 1 ≤ 13
    omega
  | none =>
    dsimp only
    split
    · split
      · right; right; rfl
      · left; rfl
    · split
      · split
        · right; right; rfl
        · left; rfl
      · split
        · right; left
          constructor
          · show 8 ≤ HighlighterState.H2
            decide
          · show HighlighterState.H2 ≤ 13
            decide
        · split
          · right; left
            constructor
            · show 8 ≤ HighlighterState.H1
              decide
            · show HighlighterState.H1 ≤ 13
              decide
          · left; rfl

theorem codeBlockStage_state_cases (t : List Char) (ps : HighlighterState) (st : HLSt) :
    (codeBlockStage t ps st).state = st.state ∨
    (codeBlockStage t ps st).state = HighlighterState.CodeBlock ∨
    (codeBlockStage t ps st).state = HighlighterState.CodeBlockEnd := by
  unfold codeBlockStage
  split
  · dsimp only
    split
    · right; right; rfl
    · right; left; rfl
  · split
    · right; left; rfl
    · left; rfl

theorem commentBlockStage_skip {t : List Char} {ps : HighlighterState} {st : HLSt}
    (hs : startsWithL (pyStrip isWsChar t) openMarker = true)
    (hc : containsL (pyStrip isWsChar t) closeMarker = true) :
    commentBlockStage t ps st = st := by
  unfold commentBlockStage
  simp [hs, hc]

/-- C7 (amended): a line whose stripped text starts with the comment open
marker and also contains the close marker is skipped by the comment-block
resolver — the resolver changes nothing (in particular end_state is never
set to Comment, and the whole pass leaves end_state different from
Comment) — but the line can still be decorated as Comment by the inline
Comment rule of the post pass (see the counterexample). -/
theorem same_line_comment_non_propagating
    (prevId : Nat) (dq : List Nat) (text prevText nextText : List Char)
    (ps : HighlighterState)
    (hs : startsWithL (pyStrip isWsChar text) openMarker = true)
    (hc : containsL (pyStrip isWsChar text) closeMarker = true) :
    (∀ st : HLSt, commentBlockStage text ps st = st) ∧
    (highlightBlock prevId dq text prevText nextText ps).state ≠
      HighlighterState.Comment := by
  refine ⟨fun st => commentBlockStage_skip hs hc, ?_⟩
  unfold highlightBlock
  rw [commentBlockStage_skip hs hc]
  have hrp : (rulesPhase prevId dq text prevText nextText ps).state ≠
      HighlighterState.Comment := by
    unfold rulesPhase
    by_cases he : text.isEmpty = true
    · simp only [he, if_true]
      show ¬HighlighterState.Default = HighlighterState.Comment
      decide
    · simp only [he, Bool.false_eq_true, if_false]
      rw [postRules_state]
      rcases highlightHeadline_state_cases text prevText nextText ps prevId
          (additionalRules preRules text (initSt dq)) with h | h | h
      · rw [h]
        rcases preRules_state text (initSt dq) with h2 | h2 <;> rw [h2]
        · show ¬HighlighterState.Default = HighlighterState.Comment
          decide
        · decide
      · intro hbad
        rw [hbad] at h
        exact absurd h (by decide)
      · rw [h]
        decide
  rcases codeBlockStage_state_cases text ps (rulesPhase prevId dq text prevText nextText ps)
      with h | h | h <;> rw [h]
  · exact hrp
  · decide
  · decide

/-- C7 counterexample: the line "<!-- hi -->" (open and close marker on the
same line) IS decorated as Comment over its whole length by the inline
Comment rule, refuting "never gets decorated as Comment at all"; its
end_state is still not Comment. -/
theorem same_line_comment_decorated_counterexample :
    (highlightBlock 0 [] ("<!-- hi -->".data) [] [] HighlighterState.Default).fmts 0 =
      formatFor HighlighterState.Comment ∧
    (highlightBlock 0 [] ("<!-- hi -->".data) [] [] HighlighterState.Default).fmts 10 =
      formatFor HighlighterState.Comment ∧
    (highlightBlock 0 [] ("<!-- hi -->".data) [] [] HighlighterState.Default).state ≠
      HighlighterState.Comment :=
  ⟨by decide, by decide, by decide⟩

theorem same_line_comment_non_propagating_witness :
    startsWithL (pyStrip isWsChar ("<!-- ok -->".data)) openMarker = true ∧
    containsL (pyStrip isWsChar ("<!-- ok -->".data)) closeMarker = true ∧
    commentBlockStage ("<!-- ok -->".data) HighlighterState.Default (initSt []) = initSt [] ∧
    (highlightBlock 0 [] ("<!-- ok -->".data) [] [] HighlighterState.Default).state ≠
      HighlighterState.Comment := by
  have h := same_line_comment_non_propagating 0 [] ("<!-- ok -->".data) [] []
    HighlighterState.Default (by decide) (by decide)
  exact ⟨by decide, by decide, h.1 (initSt []), h.2⟩
